import Mathlib

/-!
Shallow embedding of vtimer (vkuznetsov/vtimer), a minimal systray countdown
timer.  The repository holds two near-duplicate versions of the program; the
current one (embedded in the repository README, with state symbols, the
Started/Paused/TimedOut event protocol and the stats menu item) is the one the
specification describes, and it is the version embedded here.  Where the older
`main.go` differs, a comment says so.

Modelling conventions:
* Go `time.Duration` is an int64 count of nanoseconds; durations are
  modelled as `Int`, with explicit two's-complement wrapping (`wrap64`)
  where the Go arithmetic can overflow (the interval built by
  `parseInterval` from user-controlled digit strings).
* Go `time.Time` instants are modelled as `Int` nanosecond timestamps with
  exact arithmetic; the engine claims only concern in-range instants.
* Fallible Go functions returning `(T, error)` are modelled as `Option T`.
-/

namespace VTimer

/-! ### Go `time` package constants (nanoseconds) -/

def Second : Int := 1000000000

def Minute : Int := 60 * Second

def Hour : Int := 60 * Minute

def maxInt64Nat : Nat := 9223372036854775807

/-- Two's-complement wrap-around of unbounded integer arithmetic into the
int64 range, as Go's `int64` operations behave. -/
def wrap64 (n : Int) : Int :=
  (n + 9223372036854775808) % 18446744073709551616 - 9223372036854775808

/-- Go int64 addition (wrapping). -/
def i64add (a b : Int) : Int := wrap64 (a + b)

/-- Go int64 multiplication (wrapping). -/
def i64mul (a b : Int) : Int := wrap64 (a * b)

/-! ### The interval regular expression

`parseInterval` compiles
`^(?P<hours>[0-9]+h)*\s*(?P<mins>[0-9]+m)*\s*(?P<secs>[0-9]+s)*$`.
Note that each named group carries a `*` quantifier (zero or more
repetitions), not `?`, and that `\s*` (RE2: `[\t\n\f\r ]`) is allowed
between the groups.  When a starred group matches several times, Go/RE2
reports the text of its last repetition as the group's submatch. -/

/-- RE2 character class `[0-9]` (code points are compared numerically). -/
def isDigit (c : Char) : Bool := 48 ≤ c.toNat && c.toNat ≤ 57

/-- RE2 character class `\s`, i.e. `[\t\n\f\r ]`. -/
def isSpaceRE (c : Char) : Bool :=
  c.toNat = 9 || c.toNat = 10 || c.toNat = 12 || c.toNat = 13 || c.toNat = 32

/-- Recogniser for one starred group `([0-9]+u)*` positioned at the head of
the input.  `pend` holds digits read but not yet closed by the unit letter
`u`; `acc` holds the digits of the last completed repetition (the submatch
RE2 reports for a starred capture group).  Characters that cannot extend the
group are given back: the returned list is the exact remainder of the input
the group does not consume. -/
def scanBlocks (u : Char) : List Char → List Char → Option (List Char) →
    Option (List Char) × List Char
  | [], pend, acc => (acc, pend)
  | c :: cs, pend, acc =>
    if isDigit c then scanBlocks u cs (pend ++ [c]) acc
    else if c = u ∧ pend ≠ [] then scanBlocks u cs [] (some pend)
    else (acc, pend ++ c :: cs)

/-- Recogniser for `\s*`. -/
def skipSpaces : List Char → List Char
  | [] => []
  | c :: cs => if isSpaceRE c then skipSpaces cs else c :: cs

/-- The three named submatches of the interval pattern (digit part of the
last repetition of each group; `none` when the group did not participate,
which Go reports as the empty string). -/
structure IntervalMatch where
  hours : Option (List Char)
  mins : Option (List Char)
  secs : Option (List Char)
deriving DecidableEq

/-- `re.FindStringSubmatch` for the anchored interval pattern: the three
starred groups in sequence with optional blanks between them must consume
the entire input. -/
def findIntervalSubmatch (val : String) : Option IntervalMatch :=
  let p1 := scanBlocks 'h' val.toList [] none
  let r1 := skipSpaces p1.2
  let p2 := scanBlocks 'm' r1 [] none
  let r2 := skipSpaces p2.2
  let p3 := scanBlocks 's' r2 [] none
  if p3.2 = [] then some ⟨p1.1, p2.1, p3.1⟩ else none

/-- Numeric value of a decimal digit string. -/
def digitsVal (ds : List Char) : Nat :=
  ds.foldl (fun acc c => 10 * acc + (c.toNat - 48)) 0

/-- Go `strconv.Atoi` on a non-empty digit string, with the error ignored as
the source does: on positive overflow `ParseInt` returns `math.MaxInt64`
together with `ErrRange`, so the ignored-error result is the clamped
value. -/
def atoiClamped (ds : List Char) : Int :=
  if digitsVal ds ≤ maxInt64Nat then (digitsVal ds : Int) else (maxInt64Nat : Int)

/-- The source's `parseUnit` closure: the captured text of a group
(`""`/`none` when absent) gives 0, otherwise the unit letter is stripped and
the digits go through `strconv.Atoi`.  Here the capture already stores just
the digit part (the stripped form). -/
def parseUnit (cap : Option (List Char)) : Int :=
  match cap with
  | none => 0
  | some ds => atoiClamped ds

/-- `parseInterval` (README lines 219-249; byte-for-byte the same logic in
`main.go`): match the pattern, extract the three submatches, and combine
`time.Duration(hours)*time.Hour + time.Duration(mins)*time.Minute +
time.Duration(secs)*time.Second` in wrapping int64 arithmetic. -/
def parseInterval (val : String) : Option Int :=
  match findIntervalSubmatch val with
  | none => none
  | some m =>
    some (i64add (i64add (i64mul (parseUnit m.hours) Hour)
                         (i64mul (parseUnit m.mins) Minute))
                 (i64mul (parseUnit m.secs) Second))

/-! ### The pattern the specification claims (`?` instead of `*`, no blanks)

Modelled from the spec: the claimed pattern `^(\d+h)?(\d+m)?(\d+s)?$` with
every group optional but at most one repetition and no whitespace.  This
definition follows the spec's words, for comparison against the source's
`parseInterval` above. -/

/-- Recogniser for one optional group `([0-9]+u)?` at the head of the input
(spec-side counterpart of `scanBlocks`). -/
def scanOneBlock (u : Char) : List Char → List Char →
    Option (List Char) × List Char
  | [], pend => (none, pend)
  | c :: cs, pend =>
    if isDigit c then scanOneBlock u cs (pend ++ [c])
    else if c = u ∧ pend ≠ [] then (some pend, cs)
    else (none, pend ++ c :: cs)

def digitsValOpt (cap : Option (List Char)) : Nat :=
  match cap with
  | none => 0
  | some ds => digitsVal ds

/-- Modelled from the spec: parse of the claimed pattern
`^(\d+h)?(\d+m)?(\d+s)?$`, yielding the numeric hour/minute/second
components when the string matches and `none` otherwise. -/
def specParse (val : String) : Option (Nat × Nat × Nat) :=
  let p1 := scanOneBlock 'h' val.toList []
  let p2 := scanOneBlock 'm' p1.2 []
  let p3 := scanOneBlock 's' p2.2 []
  if p3.2 = [] then some (digitsValOpt p1.1, digitsValOpt p2.1, digitsValOpt p3.1)
  else none

/-- The mathematical (unwrapped) nanosecond value described by an interval
match: hours, minutes and seconds in their respective units. -/
def intervalNatValM (m : IntervalMatch) : Nat :=
  digitsValOpt m.hours * 3600000000000 + digitsValOpt m.mins * 60000000000 +
    digitsValOpt m.secs * 1000000000

/-- `intervalNatValM` lifted to the input string (0 when the pattern does
not match). -/
def intervalNatVal (val : String) : Nat :=
  match findIntervalSubmatch val with
  | none => 0
  | some m => intervalNatValM m

/-! ### `parseDisplay` (README lines 251-288)

Each display format is a pure function of a duration.  The Go bodies call
`int(d.Round(unit).Unit())`: after `Round(unit)` the value is an exact
multiple of the unit (or the saturated extremum), and the unit counts
involved are below `2^53`, so the float64 conversion in `Hours()` /
`Minutes()` / `Seconds()` is exact and `int(...)` equals truncated integer
division by the unit.  Go's `/` and `%` on integers truncate toward zero
(`Int.tdiv` / `Int.tmod`).

The older `main.go` formatters lack the `Round` calls; the README version
modelled here is the one the specification describes. -/

def minDuration : Int := -9223372036854775808

def maxDuration : Int := 9223372036854775807

/-- Go `time.Duration.Round`: round to the nearest multiple of `m`, halves
away from zero, saturating at the int64 extrema.  The interior `d1`
computations wrap as Go int64 arithmetic does; Go detects the overflow by
comparing the wrapped value against `d`. -/
def durRound (d m : Int) : Int :=
  if m ≤ 0 then d
  else
    let r := Int.tmod d m
    if d < 0 then
      let r2 := -r
      if r2 + r2 < m then d + r2
      else
        let d1 := wrap64 (d - m + r2)
        if d1 < d then d1 else minDuration
    else
      if r + r < m then d - r
      else
        let d1 := wrap64 (d + m - r)
        if d1 > d then d1 else maxDuration

/-- Go `fmt.Sprintf "%02d"`: decimal rendering zero-padded to width 2 (a
sign counts toward the width). -/
def pad2 (n : Int) : String :=
  if n < 0 then "-" ++ toString n.natAbs
  else if n < 10 then "0" ++ toString n
  else toString n

/-- `parseDisplay`: select one of the six formatters by the display code, or
fail with "invalid display argument".  A Go `switch` on a string compares
the scrutinee against each case label in turn. -/
def parseDisplay (val : String) : Option (Int → String) :=
  if val = "h" then
    some (fun diff => toString ((durRound diff Hour).tdiv Hour) ++ "h")
  else if val = "m" then
    some (fun diff => toString ((durRound diff Minute).tdiv Minute) ++ "m")
  else if val = "s" then
    some (fun diff => toString ((durRound diff Second).tdiv Second) ++ "s")
  else if val = "hm" then
    some (fun diff =>
      let mins := (durRound diff Minute).tdiv Minute
      let hours := mins.tdiv 60
      let mins2 := mins.tmod 60
      pad2 hours ++ "h " ++ pad2 mins2 ++ "m")
  else if val = "hms" then
    some (fun diff =>
      let secs := (durRound diff Second).tdiv Second
      let mins := secs.tdiv 60
      let hours := mins.tdiv 60
      let mins2 := mins.tmod 60
      let secs2 := secs - mins2 * 60 - hours * 3600
      pad2 hours ++ ":" ++ pad2 mins2 ++ ":" ++ pad2 secs2)
  else if val = "ms" then
    some (fun diff =>
      let secs := (durRound diff Second).tdiv Second
      let mins := secs.tdiv 60
      let secs2 := secs.tmod 60
      pad2 mins ++ ":" ++ pad2 secs2)
  else none

/-! ### `parseTimerSymbols` (README lines 290-320) -/

/-- The closed three-element enumeration of symbol codes
(`timerStopSymbol`, `timerContinueSymbol`, `timerRestartSymbol`).  The Go
type is an `int` with these three constants; every call site uses only
them, and the default arm of the lookup (a runtime abort for any other
integer) is unrepresentable over the closed enumeration. -/
inductive TimerSymbolCode
  | timerStopSymbol
  | timerContinueSymbol
  | timerRestartSymbol
deriving DecidableEq

/-- The rune-collection loop of `parseTimerSymbols`: `runes` starts as three
empty strings, `idx` at 0; each rune of the argument is stored at `idx`,
and a rune arriving when `idx > 2` makes the whole parse fail. -/
def fillSymbolRunes : List Char → Nat → List String → Option (List String)
  | [], _, runes => some runes
  | c :: cs, idx, runes =>
    if idx > 2 then none
    else fillSymbolRunes cs (idx + 1) (runes.set idx (String.mk [c]))

/-- `parseTimerSymbols`: with `dontUseSymbols` every code maps to the empty
string; otherwise the runes of the argument fill a 3-slot table (restart,
stop, continue in that order) and a fourth rune is an error. -/
def parseTimerSymbols (symbols : String) (dontUseSymbols : Bool) :
    Option (TimerSymbolCode → String) :=
  if dontUseSymbols then some (fun _ => "")
  else
    match fillSymbolRunes symbols.toList 0 ["", "", ""] with
    | none => none
    | some runes =>
      some (fun code =>
        match code with
        | .timerRestartSymbol => runes.getD 0 ""
        | .timerStopSymbol => runes.getD 1 ""
        | .timerContinueSymbol => runes.getD 2 "")

/-- The single-rune string sitting at index `i` of `s`, or `""` past the
end — the contents of `runes[i]` after the collection loop. -/
def strAt (s : String) (i : Nat) : String :=
  match s.toList.get? i with
  | some c => String.mk [c]
  | none => ""

/-- The symbol table a successful `parseTimerSymbols s false` produces:
restart, stop, continue are the first, second and third rune of `s`
(empty string where `s` is shorter). -/
def expectedSymbols (s : String) : TimerSymbolCode → String
  | .timerRestartSymbol => strAt s 0
  | .timerStopSymbol => strAt s 1
  | .timerContinueSymbol => strAt s 2

/-! ### The timer engine: `timerLoop` (README lines 77-125)

One iteration of the loop body becomes the step function `timerStep`:
read `now`, drain at most one pending command (`select`/`default`), then,
if started, recompute `diff = stopTime.Sub(now)` and either refresh the
running title or time out.  External effects (`systray.SetTitle`, event
sends, the `beeep` notification) become an ordered output list. -/

inductive TimerCommand
  | timerStopCommand
  | timerContinueCommand
  | timerRestartCommand
deriving DecidableEq

inductive TimerEvent
  | timerOutEvent
  | timerPausedEvent
  | timerStartedEvent
deriving DecidableEq

/-- The immutable fields of the `timer` struct (channels become the
input/output of `timerStep`). -/
structure TimerCfg where
  display : Int → String
  interval : Int
  symbols : TimerSymbolCode → String

/-- The mutable state of `timerLoop`: its four local variables.
`restInterval` and `diff` are zero-valued `time.Duration` declarations. -/
structure TimerState where
  restInterval : Int
  diff : Int
  started : Bool
  stopTime : Int
deriving DecidableEq

/-- Externally observable actions of one engine iteration, in program
order. -/
inductive TimerOut
  | setTitle (text : String)
  | event (e : TimerEvent)
  | notify (title msg : String)
deriving DecidableEq

/-- `notifyTimeout` (README lines 328-333): `beeep.Notify("Time out",
display(interval) + " have passed", "")`. -/
def notifyTimeoutOut (cfg : TimerCfg) : TimerOut :=
  TimerOut.notify "Time out" (cfg.display cfg.interval ++ " have passed")

/-- One iteration of `timerLoop` (README lines 87-124).  The command is
handled first (README 90-108); note that the `timerStopCommand` branch is
not guarded by `started` and that its title uses the stale `diff` variable,
last assigned on a previous running iteration.  Then, if started, `diff`
is recomputed from the absolute `stopTime` (README 110-121): positive
remainder refreshes the running title, otherwise the engine stops, shows
the full configured interval, emits `timerOutEvent` and notifies. -/
def timerStep (cfg : TimerCfg) (s : TimerState) (now : Int)
    (cmd : Option TimerCommand) : TimerState × List TimerOut :=
  let afterCmd : TimerState × List TimerOut :=
    match cmd with
    | some TimerCommand.timerStopCommand =>
      ({ s with restInterval := s.stopTime - now, started := false },
       [TimerOut.setTitle
          (cfg.symbols TimerSymbolCode.timerStopSymbol ++ " " ++ cfg.display s.diff),
        TimerOut.event TimerEvent.timerPausedEvent])
    | some TimerCommand.timerContinueCommand =>
      ({ s with stopTime := now + s.restInterval, started := true },
       [TimerOut.event TimerEvent.timerStartedEvent])
    | some TimerCommand.timerRestartCommand =>
      ({ s with stopTime := now + cfg.interval, started := true },
       [TimerOut.event TimerEvent.timerStartedEvent])
    | none => (s, [])
  let s1 := afterCmd.1
  if s1.started then
    let d := s1.stopTime - now
    if d > 0 then
      ({ s1 with diff := d },
       afterCmd.2 ++
         [TimerOut.setTitle
            (cfg.symbols TimerSymbolCode.timerContinueSymbol ++ " " ++ cfg.display d)])
    else
      ({ s1 with diff := d, started := false },
       afterCmd.2 ++
         [TimerOut.setTitle
            (cfg.symbols TimerSymbolCode.timerStopSymbol ++ " " ++
               cfg.display cfg.interval),
          TimerOut.event TimerEvent.timerOutEvent,
          notifyTimeoutOut cfg])
  else afterCmd

/-- The loop preamble (README lines 78-83): zero-valued `restInterval` and
`diff`, `started = true`, `stopTime = now.Add(timer.interval)`.  (Before
entering the loop the engine also sends `timerStartedEvent`.) -/
def timerInit (cfg : TimerCfg) (now0 : Int) : TimerState :=
  { restInterval := 0, diff := 0, started := true, stopTime := now0 + cfg.interval }

/-- Iterated engine steps over a schedule of (clock reading, drained
command) pairs. -/
def timerRun (cfg : TimerCfg) (s : TimerState)
    (trace : List (Int × Option TimerCommand)) : TimerState :=
  trace.foldl (fun st p => (timerStep cfg st p.1 p.2).1) s

/-! ### The menu controller: `menuLoop` (README lines 135-167) -/

/-- One arm of the controller's `select`: an engine event or a menu item
click. -/
inductive MenuInput
  | ev (e : TimerEvent)
  | quitClick
  | statsClick
  | restartClick
  | stopClick
  | continueClick
deriving DecidableEq

/-- The controller-owned state: the enabled flags of the Stop/Continue menu
items (systray items are created enabled) and the `intervalCounter`. -/
structure MenuState where
  stopEnabled : Bool
  continueEnabled : Bool
  intervalCounter : Nat
deriving DecidableEq

/-- Externally observable actions of one controller iteration. -/
inductive MenuOut
  | statsTitle (text : String)
  | sendCommand (cmd : TimerCommand)
  | quitApp
deriving DecidableEq

/-- `AddMenuItem` creates enabled items; the counter starts at 0. -/
def menuInit : MenuState :=
  { stopEnabled := true, continueEnabled := true, intervalCounter := 0 }

/-- One iteration of `menuLoop`: refresh the stats label, then react to one
select arm.  Only the three engine events touch the Stop/Continue enabled
flags; clicks send commands (or quit, or zero the counter) without changing
enablement. -/
def menuStep (m : MenuState) (i : MenuInput) : MenuState × List MenuOut :=
  let outs := [MenuOut.statsTitle (toString m.intervalCounter ++ " intervals passed")]
  match i with
  | .ev TimerEvent.timerOutEvent =>
    ({ m with continueEnabled := false, stopEnabled := false,
              intervalCounter := m.intervalCounter + 1 }, outs)
  | .ev TimerEvent.timerStartedEvent =>
    ({ m with stopEnabled := true, continueEnabled := false }, outs)
  | .ev TimerEvent.timerPausedEvent =>
    ({ m with stopEnabled := false, continueEnabled := true }, outs)
  | .quitClick => (m, outs ++ [MenuOut.quitApp])
  | .statsClick => ({ m with intervalCounter := 0 }, outs)
  | .restartClick => (m, outs ++ [MenuOut.sendCommand TimerCommand.timerRestartCommand])
  | .stopClick => (m, outs ++ [MenuOut.sendCommand TimerCommand.timerStopCommand])
  | .continueClick =>
    (m, outs ++ [MenuOut.sendCommand TimerCommand.timerContinueCommand])

/-- Iterated controller steps. -/
def menuRun (m : MenuState) (inputs : List MenuInput) : MenuState :=
  inputs.foldl (fun st i => (menuStep st i).1) m

/-- The event carried by one input, if it is one. -/
def toEvent : MenuInput → Option TimerEvent
  | .ev e => some e
  | _ => none

/-- The last engine event in an input sequence, if any. -/
def lastEvent : List MenuInput → Option TimerEvent
  | [] => none
  | i :: rest =>
    match lastEvent rest with
    | some e => some e
    | none => toEvent i

/-- Stop-item enablement dictated by an event (the spec's mirror table). -/
def mirrorStop : TimerEvent → Bool
  | .timerStartedEvent => true
  | _ => false

/-- Continue-item enablement dictated by an event. -/
def mirrorCont : TimerEvent → Bool
  | .timerPausedEvent => true
  | _ => false

/-! ### Concrete test fixtures (configurations fed to the engine in
counterexamples and witnesses) -/

/-- A 10-second timer whose display and symbol functions are constant. -/
def cfgA : TimerCfg :=
  { display := fun _ => "", interval := 10000000000, symbols := fun _ => "" }

/-- A 10-second timer whose display renders the raw nanosecond count, so
distinct durations give distinct titles. -/
def cfgB : TimerCfg :=
  { display := fun d => toString d, interval := 10000000000, symbols := fun _ => "S" }


/-! ## Helper lemmas -/

/-- No branch of `timerStep` other than the stop command writes
`restInterval`. -/
theorem timerStep_restInterval_of_ne_stop (cfg : TimerCfg) (s : TimerState)
    (now : Int) (cmd : Option TimerCommand)
    (h : cmd ≠ some TimerCommand.timerStopCommand) :
    ((timerStep cfg s now cmd).1).restInterval = s.restInterval := by
  rcases cmd with _ | c
  · unfold timerStep
    dsimp only
    split
    · split <;> rfl
    · rfl
  · rcases c with _ | _ | _
    · exact absurd rfl h
    · unfold timerStep
      dsimp only
      split
      · split <;> rfl
      · rfl
    · unfold timerStep
      dsimp only
      split
      · split <;> rfl
      · rfl

/-- Along any schedule that never delivers a stop command, `restInterval`
keeps its value. -/
theorem timerRun_restInterval_of_no_stop (cfg : TimerCfg)
    (trace : List (Int × Option TimerCommand)) :
    ∀ (s : TimerState),
      (∀ p ∈ trace, p.2 ≠ some TimerCommand.timerStopCommand) →
      (timerRun cfg s trace).restInterval = s.restInterval := by
  induction trace with
  | nil => intro s _; rfl
  | cons p rest ih =>
    intro s h
    have h1 : p.2 ≠ some TimerCommand.timerStopCommand := h p (List.mem_cons_self p rest)
    have h2 : ∀ q ∈ rest, q.2 ≠ some TimerCommand.timerStopCommand :=
      fun q hq => h q (List.mem_cons_of_mem p hq)
    have : timerRun cfg s (p :: rest) = timerRun cfg (timerStep cfg s p.1 p.2).1 rest := rfl
    rw [this, ih _ h2, timerStep_restInterval_of_ne_stop cfg s p.1 p.2 h1]

/-- A controller iteration triggered by a click never changes the
Stop/Continue enabled flags. -/
theorem menuStep_click_enablement (m : MenuState) (i : MenuInput)
    (h : toEvent i = none) :
    ((menuStep m i).1).stopEnabled = m.stopEnabled ∧
    ((menuStep m i).1).continueEnabled = m.continueEnabled := by
  rcases i with e | _ | _ | _ | _ | _
  · simp [toEvent] at h
  all_goals exact ⟨rfl, rfl⟩

/-- An event-free input sequence preserves the Stop/Continue enabled
flags. -/
theorem menuRun_enablement_of_no_event (inputs : List MenuInput) :
    ∀ (m : MenuState), lastEvent inputs = none →
      (menuRun m inputs).stopEnabled = m.stopEnabled ∧
      (menuRun m inputs).continueEnabled = m.continueEnabled := by
  induction inputs with
  | nil => intro m _; exact ⟨rfl, rfl⟩
  | cons i rest ih =>
    intro m h
    unfold lastEvent at h
    rcases hrest : lastEvent rest with _ | e
    · rw [hrest] at h
      have hm : menuRun m (i :: rest) = menuRun (menuStep m i).1 rest := rfl
      have hs := ih (menuStep m i).1 hrest
      have hc := menuStep_click_enablement m i h
      rw [hm, hs.1, hs.2]
      exact ⟨hc.1, hc.2⟩
    · rw [hrest] at h; simp at h

/-- The enabled flags right after an event are the mirror table of that
event. -/
theorem menuStep_ev_enablement (m : MenuState) (e : TimerEvent) :
    ((menuStep m (MenuInput.ev e)).1).stopEnabled = mirrorStop e ∧
    ((menuStep m (MenuInput.ev e)).1).continueEnabled = mirrorCont e := by
  cases e <;> exact ⟨rfl, rfl⟩

/-- The symbol collection loop succeeds exactly on at most three runes. -/
theorem fillSymbolRunes_isSome (cs : List Char) :
    ∀ (idx : Nat) (runes : List String),
      (fillSymbolRunes cs idx runes).isSome = true ↔ cs.length + idx ≤ 3 ∨ cs = [] := by
  induction cs with
  | nil => intro idx runes; simp [fillSymbolRunes]
  | cons c cs ih =>
    intro idx runes
    unfold fillSymbolRunes
    by_cases h : idx > 2
    · rw [if_pos h]
      simp only [Option.isSome_none, Bool.false_eq_true, false_iff]
      rintro (hle | habs)
      · simp only [List.length_cons] at hle; omega
      · exact List.cons_ne_nil c cs habs
    · rw [if_neg h, ih]
      rcases cs with _ | ⟨d, ds⟩
      · simp; omega
      · simp; omega

/-! ### Scanner lemmas for the interval pattern -/

theorem scanOneBlock_none_eq (u : Char) :
    ∀ (cs pend r : List Char), scanOneBlock u cs pend = (none, r) → r = pend ++ cs := by
  intro cs
  induction cs with
  | nil =>
    intro pend r h
    simp only [scanOneBlock, Prod.mk.injEq] at h
    simp [h.2]
  | cons c cs ih =>
    intro pend r h
    simp only [scanOneBlock] at h
    by_cases hd : isDigit c
    · rw [if_pos hd] at h
      have := ih (pend ++ [c]) r h
      simp [this]
    · rw [if_neg hd] at h
      by_cases hu : c = u ∧ pend ≠ []
      · rw [if_pos hu] at h
        exact absurd h (by simp)
      · rw [if_neg hu] at h
        simp only [Prod.mk.injEq] at h
        exact h.2.symm

theorem scanOneBlock_some_decomp (u : Char) :
    ∀ (cs pend ds rest : List Char), scanOneBlock u cs pend = (some ds, rest) →
      (∀ c ∈ pend, isDigit c = true) →
      pend ++ cs = ds ++ u :: rest ∧ ds ≠ [] ∧ ∀ c ∈ ds, isDigit c = true := by
  intro cs
  induction cs with
  | nil =>
    intro pend ds rest h _
    exact absurd h (by simp [scanOneBlock])
  | cons c cs ih =>
    intro pend ds rest h hdig
    simp only [scanOneBlock] at h
    by_cases hd : isDigit c
    · rw [if_pos hd] at h
      have hdig2 : ∀ x ∈ pend ++ [c], isDigit x = true := by
        intro x hx
        rcases List.mem_append.mp hx with hx | hx
        · exact hdig x hx
        · rw [List.mem_singleton.mp hx]; exact hd
      have := ih (pend ++ [c]) ds rest h hdig2
      refine ⟨?_, this.2.1, this.2.2⟩
      have h1 := this.1
      simpa using h1
    · rw [if_neg hd] at h
      by_cases hu : c = u ∧ pend ≠ []
      · rw [if_pos hu] at h
        simp only [Prod.mk.injEq, Option.some.injEq] at h
        refine ⟨?_, ?_, ?_⟩
        · rw [← h.1, ← h.2, hu.1]
        · rw [← h.1]; exact hu.2
        · rw [← h.1]; exact hdig
      · rw [if_neg hu] at h
        exact absurd h (by simp)

theorem scanBlocks_of_none (u : Char) :
    ∀ (cs pend : List Char) (acc : Option (List Char)) (r : List Char),
      scanOneBlock u cs pend = (none, r) → scanBlocks u cs pend acc = (acc, r) := by
  intro cs
  induction cs with
  | nil =>
    intro pend acc r h
    simp only [scanOneBlock, Prod.mk.injEq] at h
    simp [scanBlocks, h.2]
  | cons c cs ih =>
    intro pend acc r h
    simp only [scanOneBlock] at h
    simp only [scanBlocks]
    by_cases hd : isDigit c
    · rw [if_pos hd] at h
      rw [if_pos hd]
      exact ih (pend ++ [c]) acc r h
    · rw [if_neg hd] at h
      rw [if_neg hd]
      by_cases hu : c = u ∧ pend ≠ []
      · rw [if_pos hu] at h
        exact absurd h (by simp)
      · rw [if_neg hu] at h
        rw [if_neg hu]
        simp only [Prod.mk.injEq] at h
        simp [h.2]

theorem scanBlocks_one (u : Char) :
    ∀ (cs pend ds rest : List Char),
      scanOneBlock u cs pend = (some ds, rest) →
      scanOneBlock u rest [] = (none, rest) →
      scanBlocks u cs pend none = (some ds, rest) := by
  intro cs
  induction cs with
  | nil =>
    intro pend ds rest h _
    exact absurd h (by simp [scanOneBlock])
  | cons c cs ih =>
    intro pend ds rest h hno
    simp only [scanOneBlock] at h
    simp only [scanBlocks]
    by_cases hd : isDigit c
    · rw [if_pos hd] at h
      rw [if_pos hd]
      exact ih (pend ++ [c]) ds rest h hno
    · rw [if_neg hd] at h
      rw [if_neg hd]
      by_cases hu : c = u ∧ pend ≠ []
      · rw [if_pos hu] at h
        rw [if_pos hu]
        simp only [Prod.mk.injEq, Option.some.injEq] at h
        obtain ⟨hpd, hcr⟩ := h
        subst hpd
        subst hcr
        exact scanBlocks_of_none _ _ _ _ _ hno
      · rw [if_neg hu] at h
        exact absurd h (by simp)

/-- An all-digit input holds no complete unit block. -/
theorem scanOneBlock_digits_nil (u : Char) :
    ∀ (ds pend : List Char), (∀ c ∈ ds, isDigit c = true) →
      scanOneBlock u ds pend = (none, pend ++ ds) := by
  intro ds
  induction ds with
  | nil => intro pend _; simp [scanOneBlock]
  | cons d ds ih =>
    intro pend h
    have hd : isDigit d = true := h d (List.mem_cons_self d ds)
    simp only [scanOneBlock, if_pos hd]
    have := ih (pend ++ [d]) (fun c hc => h c (List.mem_cons_of_mem d hc))
    rw [this]
    simp

/-- Digits followed by a letter that is neither a digit nor the sought
unit: the group matches nothing and consumes nothing. -/
theorem scanOneBlock_digits_other (u c : Char) :
    ∀ (ds r pend : List Char), (∀ x ∈ ds, isDigit x = true) →
      isDigit c = false → c ≠ u →
      scanOneBlock u (ds ++ c :: r) pend = (none, pend ++ ds ++ c :: r) := by
  intro ds
  induction ds with
  | nil =>
    intro r pend _ hcd hcu
    simp only [List.nil_append, scanOneBlock, hcd, Bool.false_eq_true, if_false]
    rw [if_neg (by simp [hcu])]
    simp
  | cons d ds ih =>
    intro r pend h hcd hcu
    have hd : isDigit d = true := h d (List.mem_cons_self d ds)
    have hstep : (d :: ds) ++ c :: r = d :: (ds ++ c :: r) := rfl
    rw [hstep]
    simp only [scanOneBlock, if_pos hd]
    have := ih r (pend ++ [d]) (fun x hx => h x (List.mem_cons_of_mem d hx)) hcd hcu
    rw [this]
    simp

theorem isDigit_not_space (c : Char) (h : isDigit c = true) : isSpaceRE c = false := by
  have h1 : 48 ≤ c.toNat ∧ c.toNat ≤ 57 := by simpa [isDigit] using h
  simp only [isSpaceRE]
  simp only [Bool.or_eq_false_iff, decide_eq_false_iff_not]
  omega

theorem skipSpaces_cons_of_not_space (c : Char) (r : List Char)
    (h : isSpaceRE c = false) : skipSpaces (c :: r) = c :: r := by
  simp [skipSpaces, h]

/-- When the spec's `?`-pattern parser goes through, the source's starred
pattern consumes the string the same way and reports the same three
submatches. -/
theorem findIntervalSubmatch_eq_spec (s : String) (oh : Option (List Char))
    (r1 : List Char) (om : Option (List Char)) (r2 : List Char)
    (os : Option (List Char)) (r3 : List Char)
    (e1 : scanOneBlock 'h' s.toList [] = (oh, r1))
    (e2 : scanOneBlock 'm' r1 [] = (om, r2))
    (e3 : scanOneBlock 's' r2 [] = (os, r3))
    (hr3 : r3 = []) :
    findIntervalSubmatch s = some ⟨oh, om, os⟩ := by
  subst hr3
  have shapeM : (∃ dsm, om = some dsm ∧ r1 = dsm ++ 'm' :: r2 ∧ dsm ≠ [] ∧
      ∀ x ∈ dsm, isDigit x = true) ∨ (om = none ∧ r2 = r1) := by
    rcases om with _ | dsm
    · refine Or.inr ⟨rfl, ?_⟩
      have := scanOneBlock_none_eq 'm' r1 [] r2 e2
      simpa using this
    · obtain ⟨hdec, hne, hdig⟩ := scanOneBlock_some_decomp 'm' r1 [] dsm r2 e2 (by simp)
      exact Or.inl ⟨dsm, rfl, by simpa using hdec, hne, hdig⟩
  have shapeS : (∃ dss, os = some dss ∧ r2 = dss ++ ['s'] ∧ dss ≠ [] ∧
      ∀ x ∈ dss, isDigit x = true) ∨ (os = none ∧ r2 = []) := by
    rcases os with _ | dss
    · refine Or.inr ⟨rfl, ?_⟩
      have := scanOneBlock_none_eq 's' r2 [] [] e3
      simpa using this.symm
    · obtain ⟨hdec, hne, hdig⟩ := scanOneBlock_some_decomp 's' r2 [] dss [] e3 (by simp)
      exact Or.inl ⟨dss, rfl, by simpa using hdec, hne, hdig⟩
  have hnoH : scanOneBlock 'h' r1 [] = (none, r1) := by
    rcases shapeM with ⟨dsm, _, hr1, _, hdig⟩ | ⟨_, hr21⟩
    · rw [hr1]
      have := scanOneBlock_digits_other 'h' 'm' dsm r2 [] hdig (by decide) (by decide)
      simpa using this
    · rcases shapeS with ⟨dss, _, hr2, _, hdig⟩ | ⟨_, hr2nil⟩
      · rw [← hr21, hr2]
        have := scanOneBlock_digits_other 'h' 's' dss [] [] hdig (by decide) (by decide)
        simpa using this
      · rw [← hr21, hr2nil]
        rfl
  have hnoM : scanOneBlock 'm' r2 [] = (none, r2) := by
    rcases shapeS with ⟨dss, _, hr2, _, hdig⟩ | ⟨_, hr2nil⟩
    · rw [hr2]
      have := scanOneBlock_digits_other 'm' 's' dss [] [] hdig (by decide) (by decide)
      simpa using this
    · rw [hr2nil]
      rfl
  have hA : scanBlocks 'h' s.toList [] none = (oh, r1) := by
    rcases oh with _ | dsh
    · exact scanBlocks_of_none 'h' s.toList [] none r1 e1
    · exact scanBlocks_one 'h' s.toList [] dsh r1 e1 hnoH
  have hB : skipSpaces r1 = r1 := by
    rcases shapeM with ⟨dsm, _, hr1, hne, hdig⟩ | ⟨_, hr21⟩
    · rcases dsm with _ | ⟨d0, dtl⟩
      · exact absurd rfl hne
      · rw [hr1]
        exact skipSpaces_cons_of_not_space d0 (dtl ++ 'm' :: r2)
          (isDigit_not_space d0 (hdig d0 (List.mem_cons_self d0 dtl)))
    · rcases shapeS with ⟨dss, _, hr2, hne, hdig⟩ | ⟨_, hr2nil⟩
      · rcases dss with _ | ⟨d0, dtl⟩
        · exact absurd rfl hne
        · rw [← hr21, hr2]
          exact skipSpaces_cons_of_not_space d0 (dtl ++ ['s'])
            (isDigit_not_space d0 (hdig d0 (List.mem_cons_self d0 dtl)))
      · rw [← hr21, hr2nil]
        rfl
  have hC : scanBlocks 'm' r1 [] none = (om, r2) := by
    rcases om with _ | dsm
    · exact scanBlocks_of_none 'm' r1 [] none r2 e2
    · exact scanBlocks_one 'm' r1 [] dsm r2 e2 hnoM
  have hD : skipSpaces r2 = r2 := by
    rcases shapeS with ⟨dss, _, hr2, hne, hdig⟩ | ⟨_, hr2nil⟩
    · rcases dss with _ | ⟨d0, dtl⟩
      · exact absurd rfl hne
      · rw [hr2]
        exact skipSpaces_cons_of_not_space d0 (dtl ++ ['s'])
          (isDigit_not_space d0 (hdig d0 (List.mem_cons_self d0 dtl)))
    · rw [hr2nil]
      rfl
  have hE : scanBlocks 's' r2 [] none = (os, []) := by
    rcases os with _ | dss
    · exact scanBlocks_of_none 's' r2 [] none [] e3
    · exact scanBlocks_one 's' r2 [] dss [] e3 rfl
  simp only [findIntervalSubmatch, hA, hB, hC, hD, hE]
  simp

/-! ### In-range evaluation of `parseInterval` -/

theorem wrap64_eq_self (n : Int) (h0 : 0 ≤ n) (h1 : n < 9223372036854775808) :
    wrap64 n = n := by
  unfold wrap64
  rw [Int.emod_eq_of_lt (by omega) (by omega)]
  omega

theorem parseUnit_eq_cast (o : Option (List Char)) (h : digitsValOpt o ≤ maxInt64Nat) :
    parseUnit o = (digitsValOpt o : Int) := by
  cases o with
  | none => simp [parseUnit, digitsValOpt]
  | some ds =>
    simp only [parseUnit, digitsValOpt, atoiClamped] at h ⊢
    rw [if_pos h]

/-- When the mathematical value of the three captures fits in int64, the
wrapping arithmetic of `parseInterval` computes exactly that value. -/
theorem parseInterval_inRange (s : String) (mch : IntervalMatch)
    (hf : findIntervalSubmatch s = some mch)
    (hb : intervalNatValM mch < 9223372036854775808) :
    parseInterval s = some ((intervalNatValM mch : Nat) : Int) := by
  rcases mch with ⟨oh, om, os⟩
  have hb' : digitsValOpt oh * 3600000000000 + digitsValOpt om * 60000000000 +
      digitsValOpt os * 1000000000 < 9223372036854775808 := hb
  have hmax : maxInt64Nat = 9223372036854775807 := rfl
  have hA : digitsValOpt oh ≤ maxInt64Nat := by omega
  have hBle : digitsValOpt om ≤ maxInt64Nat := by omega
  have hCle : digitsValOpt os ≤ maxInt64Nat := by omega
  have hHour : Hour = (3600000000000 : Int) := by norm_num [Hour, Minute, Second]
  have hMinute : Minute = (60000000000 : Int) := by norm_num [Minute, Second]
  have hSecond : Second = (1000000000 : Int) := rfl
  simp only [parseInterval, hf]
  rw [parseUnit_eq_cast oh hA, parseUnit_eq_cast om hBle, parseUnit_eq_cast os hCle,
    hHour, hMinute, hSecond]
  have e1 : i64mul (digitsValOpt oh : Int) 3600000000000 =
      ((digitsValOpt oh * 3600000000000 : Nat) : Int) := by
    unfold i64mul
    rw [show ((digitsValOpt oh : Int) * 3600000000000) =
        ((digitsValOpt oh * 3600000000000 : Nat) : Int) by push_cast; ring]
    refine wrap64_eq_self _ (Int.natCast_nonneg _) ?_
    have hlt : digitsValOpt oh * 3600000000000 < 9223372036854775808 := by omega
    exact_mod_cast hlt
  have e2 : i64mul (digitsValOpt om : Int) 60000000000 =
      ((digitsValOpt om * 60000000000 : Nat) : Int) := by
    unfold i64mul
    rw [show ((digitsValOpt om : Int) * 60000000000) =
        ((digitsValOpt om * 60000000000 : Nat) : Int) by push_cast; ring]
    refine wrap64_eq_self _ (Int.natCast_nonneg _) ?_
    have hlt : digitsValOpt om * 60000000000 < 9223372036854775808 := by omega
    exact_mod_cast hlt
  have e3 : i64mul (digitsValOpt os : Int) 1000000000 =
      ((digitsValOpt os * 1000000000 : Nat) : Int) := by
    unfold i64mul
    rw [show ((digitsValOpt os : Int) * 1000000000) =
        ((digitsValOpt os * 1000000000 : Nat) : Int) by push_cast; ring]
    refine wrap64_eq_self _ (Int.natCast_nonneg _) ?_
    have hlt : digitsValOpt os * 1000000000 < 9223372036854775808 := by omega
    exact_mod_cast hlt
  rw [e1, e2, e3]
  have e4 : i64add ((digitsValOpt oh * 3600000000000 : Nat) : Int)
      ((digitsValOpt om * 60000000000 : Nat) : Int) =
      ((digitsValOpt oh * 3600000000000 + digitsValOpt om * 60000000000 : Nat) : Int) := by
    unfold i64add
    rw [show (((digitsValOpt oh * 3600000000000 : Nat) : Int) +
        ((digitsValOpt om * 60000000000 : Nat) : Int)) =
        ((digitsValOpt oh * 3600000000000 + digitsValOpt om * 60000000000 : Nat) : Int) by
      push_cast; ring]
    refine wrap64_eq_self _ (Int.natCast_nonneg _) ?_
    have hlt : digitsValOpt oh * 3600000000000 + digitsValOpt om * 60000000000 < 9223372036854775808 := by omega
    exact_mod_cast hlt
  rw [e4]
  have e5 : i64add
      ((digitsValOpt oh * 3600000000000 + digitsValOpt om * 60000000000 : Nat) : Int)
      ((digitsValOpt os * 1000000000 : Nat) : Int) =
      ((digitsValOpt oh * 3600000000000 + digitsValOpt om * 60000000000 +
        digitsValOpt os * 1000000000 : Nat) : Int) := by
    unfold i64add
    rw [show (((digitsValOpt oh * 3600000000000 + digitsValOpt om * 60000000000 : Nat) : Int) +
        ((digitsValOpt os * 1000000000 : Nat) : Int)) =
        ((digitsValOpt oh * 3600000000000 + digitsValOpt om * 60000000000 +
          digitsValOpt os * 1000000000 : Nat) : Int) by push_cast; ring]
    refine wrap64_eq_self _ (Int.natCast_nonneg _) ?_
    have hlt : digitsValOpt oh * 3600000000000 + digitsValOpt om * 60000000000 +
          digitsValOpt os * 1000000000 < 9223372036854775808 := by omega
    exact_mod_cast hlt
  rw [e5]
  rfl

/-! ## Claims -/

/-- C1 counterexample: "1h2h" does not match the claimed pattern
`^(\d+h)?(\d+m)?(\d+s)?$` — so the claim demands an error — yet
`parseInterval` accepts it (the compiled groups are starred, and the last
repetition wins), returning 2 hours. -/
theorem c1_counterexample :
    specParse "1h2h" = none ∧ parseInterval "1h2h" = some 7200000000000 := by
  decide

/-- C1 (amended): every string matching `^(\d+h)?(\d+m)?(\d+s)?$` is
accepted by `parseInterval`, and (when the combined value fits in int64)
parses to exactly hours·3600s + minutes·60s + seconds·1s; but the pattern
actually enforced is `^([0-9]+h)*\s*([0-9]+m)*\s*([0-9]+s)*$`, so repeated
unit groups (last repetition winning) and blanks between groups are also
accepted rather than rejected. -/
theorem c1_amended (s : String) (h m sec : Nat)
    (hp : specParse s = some (h, m, sec)) :
    (parseInterval s).isSome = true ∧
    (h * 3600000000000 + m * 60000000000 + sec * 1000000000 < 9223372036854775808 →
      parseInterval s =
        some ((h * 3600000000000 + m * 60000000000 + sec * 1000000000 : Nat) : Int)) := by
  rcases e1 : scanOneBlock 'h' s.toList [] with ⟨oh, r1⟩
  rcases e2 : scanOneBlock 'm' r1 [] with ⟨om, r2⟩
  rcases e3 : scanOneBlock 's' r2 [] with ⟨os, r3⟩
  simp only [specParse, e1, e2, e3] at hp
  by_cases hr3 : r3 = []
  · rw [if_pos hr3] at hp
    simp only [Option.some.injEq, Prod.mk.injEq] at hp
    obtain ⟨hh, hm, hs⟩ := hp
    subst hh
    subst hm
    subst hs
    have hfind : findIntervalSubmatch s = some ⟨oh, om, os⟩ :=
      findIntervalSubmatch_eq_spec s oh r1 om r2 os r3 e1 e2 e3 hr3
    constructor
    · simp [parseInterval, hfind]
    · intro hbound
      exact parseInterval_inRange s ⟨oh, om, os⟩ hfind hbound
  · rw [if_neg hr3] at hp
    exact absurd hp (by simp)

/-- C1 witness: "1h5m14s" matches the simple pattern and parses to
1h + 5m + 14s = 3914000000000 ns. -/
theorem c1_amended_witness :
    (parseInterval "1h5m14s").isSome = true ∧
    parseInterval "1h5m14s" = some 3914000000000 := by
  have h := c1_amended "1h5m14s" 1 5 14 (by decide)
  refine ⟨h.1, ?_⟩
  have h2 := h.2 (by norm_num)
  rw [h2]
  norm_num

/-- C7 counterexample: the empty string and "0s" are both accepted by
`parseInterval` with result 0, so a successful parse does not guarantee a
strictly positive interval. -/
theorem c7_counterexample :
    parseInterval "" = some 0 ∧ parseInterval "0s" = some 0 := by
  decide

/-- C7 (amended): a duration returned by a successful `parseInterval` is
non-negative whenever the combined component value fits in int64, and it is
zero exactly when all numeric components are zero (e.g. for "" or "0s");
strict positivity does not hold. -/
theorem c7_amended (s : String) (d : Int) (hp : parseInterval s = some d)
    (hb : intervalNatVal s < 9223372036854775808) :
    0 ≤ d ∧ (d = 0 ↔ intervalNatVal s = 0) := by
  rcases hf : findIntervalSubmatch s with _ | mch
  · simp only [parseInterval, hf] at hp
    exact Option.noConfusion hp
  · have hb' : intervalNatValM mch < 9223372036854775808 := by
      simpa only [intervalNatVal, hf] using hb
    have hval := parseInterval_inRange s mch hf hb'
    rw [hval] at hp
    have hd : d = ((intervalNatValM mch : Nat) : Int) := (Option.some.inj hp).symm
    subst hd
    refine ⟨Int.natCast_nonneg _, ?_⟩
    simp only [intervalNatVal, hf]
    exact_mod_cast Iff.rfl

/-- C7 witness: the amended statement instantiated at "0s", whose parse
succeeds with duration 0 and whose components are all zero. -/
theorem c7_amended_witness :
    0 ≤ (0 : Int) ∧ ((0 : Int) = 0 ↔ intervalNatVal "0s" = 0) :=
  c7_amended "0s" 0 (by decide) (by decide)

/-- C2 counterexample: from the running initial 10s state, a Stop at
t = 2s captures `restInterval = 8s`; a second Stop one second later
re-captures `restInterval = 7s` (the stop command arm is not guarded by
`started`), so the state after two Stops differs from the state after
one, contrary to the claimed idempotence. -/
theorem c2_counterexample :
    ((timerStep cfgA (timerInit cfgA 0) 2000000000
        (some TimerCommand.timerStopCommand)).1).restInterval = 8000000000 ∧
    ((timerStep cfgA
        (timerStep cfgA (timerInit cfgA 0) 2000000000
          (some TimerCommand.timerStopCommand)).1 3000000000
        (some TimerCommand.timerStopCommand)).1).restInterval = 7000000000 ∧
    (timerStep cfgA
        (timerStep cfgA (timerInit cfgA 0) 2000000000
          (some TimerCommand.timerStopCommand)).1 3000000000
        (some TimerCommand.timerStopCommand)).1 ≠
      (timerStep cfgA (timerInit cfgA 0) 2000000000
        (some TimerCommand.timerStopCommand)).1 := by
  decide

/-- C2 (amended): two Stops in a row leave the timer paused both times,
but the second Stop re-captures `restInterval = stopTime - now` at its own
processing instant; the two-Stop state coincides with the one-Stop state
exactly when the clock reading has not advanced between them. -/
theorem c2_amended (cfg : TimerCfg) (s : TimerState) (now1 now2 : Int) :
    ((timerStep cfg s now1 (some TimerCommand.timerStopCommand)).1).started = false ∧
    ((timerStep cfg (timerStep cfg s now1 (some TimerCommand.timerStopCommand)).1
        now2 (some TimerCommand.timerStopCommand)).1).started = false ∧
    ((timerStep cfg (timerStep cfg s now1 (some TimerCommand.timerStopCommand)).1
        now2 (some TimerCommand.timerStopCommand)).1).restInterval =
      s.stopTime - now2 ∧
    (now1 = now2 →
      (timerStep cfg (timerStep cfg s now1 (some TimerCommand.timerStopCommand)).1
          now2 (some TimerCommand.timerStopCommand)).1 =
        (timerStep cfg s now1 (some TimerCommand.timerStopCommand)).1) := by
  refine ⟨rfl, rfl, rfl, ?_⟩
  intro h
  subst h
  rfl

/-- C2 witness: the amended statement instantiated at the concrete 10s
configuration, a concrete running state, and equal clock readings. -/
theorem c2_amended_witness :
    ((timerStep cfgA ⟨0, 0, true, 10000000000⟩ 5000000000
        (some TimerCommand.timerStopCommand)).1).started = false ∧
    ((timerStep cfgA
        (timerStep cfgA ⟨0, 0, true, 10000000000⟩ 5000000000
          (some TimerCommand.timerStopCommand)).1 5000000000
        (some TimerCommand.timerStopCommand)).1).started = false ∧
    ((timerStep cfgA
        (timerStep cfgA ⟨0, 0, true, 10000000000⟩ 5000000000
          (some TimerCommand.timerStopCommand)).1 5000000000
        (some TimerCommand.timerStopCommand)).1).restInterval =
      (10000000000 : Int) - 5000000000 ∧
    ((5000000000 : Int) = 5000000000 →
      (timerStep cfgA
          (timerStep cfgA ⟨0, 0, true, 10000000000⟩ 5000000000
            (some TimerCommand.timerStopCommand)).1 5000000000
          (some TimerCommand.timerStopCommand)).1 =
        (timerStep cfgA ⟨0, 0, true, 10000000000⟩ 5000000000
          (some TimerCommand.timerStopCommand)).1) :=
  c2_amended cfgA ⟨0, 0, true, 10000000000⟩ 5000000000 5000000000

/-- C3: a Restart command, in any state and at any clock reading, sets the
deadline to `now + interval`, sets the timer running, emits `Started`, and
(provided the configured interval is positive, as every meaningful
configuration has) the same iteration recomputes the remaining time as
exactly the configured interval and shows the running title for it. -/
theorem c3_restart (cfg : TimerCfg) (s : TimerState) (now : Int)
    (hpos : 0 < cfg.interval) :
    timerStep cfg s now (some TimerCommand.timerRestartCommand) =
      ({ s with stopTime := now + cfg.interval, started := true,
                diff := cfg.interval },
       [TimerOut.event TimerEvent.timerStartedEvent,
        TimerOut.setTitle (cfg.symbols TimerSymbolCode.timerContinueSymbol ++ " " ++
          cfg.display cfg.interval)]) := by
  have h1 : now + cfg.interval - now = cfg.interval := by ring
  simp [timerStep, h1, hpos]

/-- C3 witness: Restart from a concrete paused mid-count state of the 10s
timer resets the remaining time to the full 10s. -/
theorem c3_restart_witness :
    timerStep cfgA ⟨5000000000, 5000000000, false, 99⟩ 7
        (some TimerCommand.timerRestartCommand) =
      ({ restInterval := 5000000000, diff := cfgA.interval, started := true,
         stopTime := 7 + cfgA.interval },
       [TimerOut.event TimerEvent.timerStartedEvent,
        TimerOut.setTitle (cfgA.symbols TimerSymbolCode.timerContinueSymbol ++ " " ++
          cfgA.display cfgA.interval)]) :=
  c3_restart cfgA ⟨5000000000, 5000000000, false, 99⟩ 7 (by decide)

/-- C4 counterexample: 10s timer started at t = 0, one running tick at
t = 1s (title shows 9s, `diff = 9s`), Stop at t = 2s.  The engine captures
`restInterval = 8s` but the pushed title renders the stale `diff` (9s) —
the title for the frozen remaining duration as of the moment of stopping
(8s) is never pushed. -/
theorem c4_counterexample :
    timerStep cfgB (timerStep cfgB (timerInit cfgB 0) 1000000000 none).1
        2000000000 (some TimerCommand.timerStopCommand) =
      ({ restInterval := 8000000000, diff := 9000000000, started := false,
         stopTime := 10000000000 },
       [TimerOut.setTitle "S 9000000000", TimerOut.event TimerEvent.timerPausedEvent]) ∧
    TimerOut.setTitle (cfgB.symbols TimerSymbolCode.timerStopSymbol ++ " " ++
        cfgB.display (8000000000 : Int)) ∉
      (timerStep cfgB (timerStep cfgB (timerInit cfgB 0) 1000000000 none).1
        2000000000 (some TimerCommand.timerStopCommand)).2 := by
  decide

/-- C4 (amended): Stop while running captures
`restInterval = stopTime - now`, stops the timer and emits `Paused`, but
the pushed title formats the `diff` variable — the remaining time computed
at the last running tick (its zero initial value if none occurred) — which
can lag `restInterval` by up to one tick. -/
theorem c4_amended (cfg : TimerCfg) (s : TimerState) (now : Int)
    (_hrun : s.started = true) :
    timerStep cfg s now (some TimerCommand.timerStopCommand) =
      ({ s with restInterval := s.stopTime - now, started := false },
       [TimerOut.setTitle (cfg.symbols TimerSymbolCode.timerStopSymbol ++ " " ++
          cfg.display s.diff),
        TimerOut.event TimerEvent.timerPausedEvent]) := rfl

/-- C4 witness: the amended statement at the concrete mid-count running
state of the raw-nanosecond display configuration. -/
theorem c4_amended_witness :
    timerStep cfgB ⟨0, 9000000000, true, 10000000000⟩ 2000000000
        (some TimerCommand.timerStopCommand) =
      ({ restInterval := (10000000000 : Int) - 2000000000, diff := 9000000000,
         started := false, stopTime := 10000000000 },
       [TimerOut.setTitle (cfgB.symbols TimerSymbolCode.timerStopSymbol ++ " " ++
          cfgB.display (9000000000 : Int)),
        TimerOut.event TimerEvent.timerPausedEvent]) :=
  c4_amended cfgB ⟨0, 9000000000, true, 10000000000⟩ 2000000000 rfl

/-- C5: on a tick where the timer is running and the remaining time
`stopTime - now` is not positive, the engine stops, pushes the stopped
symbol with the formatted full configured interval (not zero and not a
placeholder), emits `TimedOut` and fires the notification — and these are
its only outputs of the tick, while a stopped engine with no command
produces nothing at all, so the notification fires exactly once per
expiry. -/
theorem c5_timeout (cfg : TimerCfg) (s : TimerState) (now : Int)
    (hrun : s.started = true) (hdiff : s.stopTime - now ≤ 0) :
    timerStep cfg s now none =
      ({ s with diff := s.stopTime - now, started := false },
       [TimerOut.setTitle (cfg.symbols TimerSymbolCode.timerStopSymbol ++ " " ++
          cfg.display cfg.interval),
        TimerOut.event TimerEvent.timerOutEvent,
        TimerOut.notify "Time out" (cfg.display cfg.interval ++ " have passed")]) ∧
    (∀ (s2 : TimerState) (now2 : Int), s2.started = false →
      timerStep cfg s2 now2 none = (s2, [])) := by
  constructor
  · have hnot : ¬ (s.stopTime - now > 0) := not_lt.mpr hdiff
    simp [timerStep, hrun, hnot, notifyTimeoutOut]
  · intro s2 now2 h2
    simp [timerStep, h2]

/-- C5 witness: the timeout tick of the 10s timer observed at t = 11s. -/
theorem c5_timeout_witness :
    (timerStep cfgA ⟨0, 1000000000, true, 10000000000⟩ 11000000000 none =
      ({ restInterval := 0, diff := (10000000000 : Int) - 11000000000,
         started := false, stopTime := 10000000000 },
       [TimerOut.setTitle (cfgA.symbols TimerSymbolCode.timerStopSymbol ++ " " ++
          cfgA.display cfgA.interval),
        TimerOut.event TimerEvent.timerOutEvent,
        TimerOut.notify "Time out" (cfgA.display cfgA.interval ++ " have passed")]) ∧
    (∀ (s2 : TimerState) (now2 : Int), s2.started = false →
      timerStep cfgA s2 now2 none = (s2, []))) :=
  c5_timeout cfgA ⟨0, 1000000000, true, 10000000000⟩ 11000000000 rfl (by decide)

/-- C6: the Stop/Continue enablement of the menu controller always mirrors
the last event received — Started enables Stop and disables Continue,
Paused the reverse, TimedOut disables both — and click inputs never change
the flags, so after TimedOut both stay disabled until the next Started
event. -/
theorem c6_menu_mirror (m0 : MenuState) (inputs : List MenuInput)
    (e : TimerEvent) (h : lastEvent inputs = some e) :
    (menuRun m0 inputs).stopEnabled = mirrorStop e ∧
    (menuRun m0 inputs).continueEnabled = mirrorCont e := by
  induction inputs generalizing m0 e with
  | nil => simp [lastEvent] at h
  | cons i rest ih =>
    unfold lastEvent at h
    have hm : menuRun m0 (i :: rest) = menuRun (menuStep m0 i).1 rest := rfl
    rcases hrest : lastEvent rest with _ | e2
    · rw [hrest] at h
      rcases i with e3 | _ | _ | _ | _ | _ <;> simp [toEvent] at h
      subst h
      rw [hm]
      have hs := menuRun_enablement_of_no_event rest (menuStep m0 (MenuInput.ev e3)).1 hrest
      rw [hs.1, hs.2]
      exact menuStep_ev_enablement m0 e3
    · rw [hrest] at h
      have he : e2 = e := by injection h
      subst he
      rw [hm]
      exact ih (menuStep m0 i).1 e2 hrest

/-- C6 witness: after Started, a Stop click, TimedOut and a Restart click,
the last event is TimedOut and both Stop and Continue are disabled. -/
theorem c6_menu_mirror_witness :
    (menuRun menuInit
        [MenuInput.ev TimerEvent.timerStartedEvent, MenuInput.stopClick,
         MenuInput.ev TimerEvent.timerOutEvent, MenuInput.restartClick]).stopEnabled =
      mirrorStop TimerEvent.timerOutEvent ∧
    (menuRun menuInit
        [MenuInput.ev TimerEvent.timerStartedEvent, MenuInput.stopClick,
         MenuInput.ev TimerEvent.timerOutEvent, MenuInput.restartClick]).continueEnabled =
      mirrorCont TimerEvent.timerOutEvent :=
  c6_menu_mirror menuInit
    [MenuInput.ev TimerEvent.timerStartedEvent, MenuInput.stopClick,
     MenuInput.ev TimerEvent.timerOutEvent, MenuInput.restartClick]
    TimerEvent.timerOutEvent (by decide)

/-- C8 counterexample: with symbols enabled, the two-rune argument "ab" is
accepted (the third slot silently stays empty), although the claim demands
an error for any count other than exactly 3. -/
theorem c8_counterexample :
    (parseTimerSymbols "ab" false).isSome = true ∧ ("ab" : String).length ≠ 3 := by
  decide

/-- C8 (amended): with symbols enabled, `parseTimerSymbols` succeeds
exactly when given at most 3 runes, and then yields the total table
mapping restart/stop/continue to the first/second/third rune, with the
empty string for missing slots; only more than 3 runes is an error. -/
theorem c8_amended (s : String) :
    ((parseTimerSymbols s false).isSome = true ↔ s.length ≤ 3) ∧
    (s.length ≤ 3 → parseTimerSymbols s false = some (expectedSymbols s)) := by
  obtain ⟨l⟩ := s
  rcases l with _ | ⟨a, _ | ⟨b, _ | ⟨c, _ | ⟨d, t⟩⟩⟩⟩
  · exact ⟨⟨fun _ => by decide, fun _ => rfl⟩,
      fun _ => congrArg some (funext fun code => by cases code <;> rfl)⟩
  · exact ⟨⟨fun _ => by show (1 : Nat) ≤ 3; decide, fun _ => rfl⟩,
      fun _ => congrArg some (funext fun code => by cases code <;> rfl)⟩
  · exact ⟨⟨fun _ => by show (2 : Nat) ≤ 3; decide, fun _ => rfl⟩,
      fun _ => congrArg some (funext fun code => by cases code <;> rfl)⟩
  · exact ⟨⟨fun _ => by show (3 : Nat) ≤ 3; decide, fun _ => rfl⟩,
      fun _ => congrArg some (funext fun code => by cases code <;> rfl)⟩
  · have hL : String.length ⟨a :: b :: c :: d :: t⟩ = t.length + 1 + 1 + 1 + 1 := rfl
    constructor
    · constructor
      · intro habs
        exact Bool.noConfusion habs
      · intro hle
        exfalso
        omega
    · intro hle
      exfalso
      omega

/-- C8 witness: the amended statement instantiated at the two-rune
argument "ab". -/
theorem c8_amended_witness :
    ((parseTimerSymbols "ab" false).isSome = true ↔ ("ab" : String).length ≤ 3) ∧
    (("ab" : String).length ≤ 3 →
      parseTimerSymbols "ab" false = some (expectedSymbols "ab")) :=
  c8_amended "ab"

/-- C9 counterexample: the display code "m" (minutes only) is accepted by
`parseDisplay`, although it lies outside the claimed set
{h, hm, hms, ms, s}. -/
theorem c9_counterexample :
    (parseDisplay "m").isSome = true ∧
    "m" ≠ "h" ∧ "m" ≠ "hm" ∧ "m" ≠ "hms" ∧ "m" ≠ "ms" ∧ "m" ≠ "s" := by
  decide

/-- C9 (amended): `parseDisplay` succeeds exactly on the six display codes
{h, m, s, hm, hms, ms} and fails with an error on every other string. -/
theorem c9_amended (v : String) :
    (parseDisplay v).isSome = true ↔
      (v = "h" ∨ v = "m" ∨ v = "s" ∨ v = "hm" ∨ v = "hms" ∨ v = "ms") := by
  unfold parseDisplay
  split_ifs with h1 h2 h3 h4 h5 h6 <;> simp_all

/-- C10: the Continue command unconditionally sets
`stopTime = now + restInterval`; `restInterval` stays at its zero initial
value along any schedule that never delivers a Stop, so Continue after a
natural timeout re-arms the deadline to `now` and the very same tick times
out again — emitting `TimedOut` and firing the notification a second
time. -/
theorem c10_continue_retimeout :
    (∀ (cfg : TimerCfg) (now0 : Int) (trace : List (Int × Option TimerCommand)),
      (∀ p ∈ trace, p.2 ≠ some TimerCommand.timerStopCommand) →
      (timerRun cfg (timerInit cfg now0) trace).restInterval = 0) ∧
    (∀ (cfg : TimerCfg) (s : TimerState) (now : Int),
      s.started = false → s.restInterval = 0 →
      timerStep cfg s now (some TimerCommand.timerContinueCommand) =
        ({ s with stopTime := now, diff := 0, started := false },
         [TimerOut.event TimerEvent.timerStartedEvent,
          TimerOut.setTitle (cfg.symbols TimerSymbolCode.timerStopSymbol ++ " " ++
            cfg.display cfg.interval),
          TimerOut.event TimerEvent.timerOutEvent,
          TimerOut.notify "Time out" (cfg.display cfg.interval ++ " have passed")])) := by
  constructor
  · intro cfg now0 trace h
    exact timerRun_restInterval_of_no_stop cfg trace (timerInit cfg now0) h
  · intro cfg s now hstart hrest
    simp [timerStep, hrest, notifyTimeoutOut]

/-- C10 witness: a 10s timer started at 0 runs without Stop through its
natural timeout at t = 11s (restInterval still 0), and a Continue at
t = 12s immediately times out again with a second notification. -/
theorem c10_continue_retimeout_witness :
    (timerRun cfgA (timerInit cfgA 0)
        [(1000000000, none), (11000000000, none)]).restInterval = 0 ∧
    timerStep cfgA ⟨0, -1000000000, false, 10000000000⟩ 12000000000
        (some TimerCommand.timerContinueCommand) =
      ({ restInterval := 0, diff := 0, started := false, stopTime := 12000000000 },
       [TimerOut.event TimerEvent.timerStartedEvent,
        TimerOut.setTitle (cfgA.symbols TimerSymbolCode.timerStopSymbol ++ " " ++
          cfgA.display cfgA.interval),
        TimerOut.event TimerEvent.timerOutEvent,
        TimerOut.notify "Time out" (cfgA.display cfgA.interval ++ " have passed")]) :=
  ⟨c10_continue_retimeout.1 cfgA 0 [(1000000000, none), (11000000000, none)] (by decide),
   c10_continue_retimeout.2 cfgA ⟨0, -1000000000, false, 10000000000⟩ 12000000000 rfl rfl⟩

end VTimer
